import Mathlib

/-!
Shallow embedding of the Career-Conversations repository (src/src/app.py and
src/database/question_db.py), used to settle the frozen claims about the
chat turn controller, the tool dispatch, the notifier and the question store.

External collaborators are modelled as scripted oracles:
  * the HTTP layer behind `requests.post` is a queue of scripted outcomes
    (a response with a status code, or a raised transport error);
  * the LLM behind `openai.chat.completions.create` is a list of scripted
    completions consumed one per call (an exhausted list models a call that
    raises an API error);
  * the structured evaluator call returns a scripted `Evaluation`.
Everything the repository's own code does (message-list construction, the
tool-call loop, keyword-argument binding, dispatch through the module's
global namespace, the evaluation/rerun branch, and the question store's
connection discipline) is translated from the source.
-/

namespace CareerConversations

/-- Outcome scripted for one `requests.post` call: the server answers with
some HTTP status code (the code never inspects it), or the HTTP layer raises
a transport error (`requests` exceptions such as ConnectionError). -/
inductive HttpOutcome
  | response (status : Nat)
  | transportError
deriving DecidableEq, Repr, Inhabited

/-- Python exceptions that the modelled code can raise. -/
inductive PyErr
  | jsonDecodeError
  | typeError
  | requestsError
  | apiError
deriving DecidableEq, Repr, Inhabited

/-- The observable side-effect state: the scripted behaviour of the HTTP
layer still to be consumed, and the text of every notification POST
attempted so far, in order. -/
structure World where
  outcomes : List HttpOutcome
  attempts : List String
deriving DecidableEq, Repr, Inhabited

/-- Model of `requests.post` to the Pushover endpoint: the attempt is
recorded, then the next scripted outcome decides whether a response object
(with its status code) is returned or a transport error is raised.  An empty
script means the network behaves (status 200). -/
def requestsPost (w : World) (text : String) : World × Except PyErr Nat :=
  match w.outcomes with
  | [] => ({ w with attempts := w.attempts ++ [text] }, .ok 200)
  | o :: rest =>
    let w' : World := { outcomes := rest, attempts := w.attempts ++ [text] }
    match o with
    | .response s => (w', .ok s)
    | .transportError => (w', .error .requestsError)

/-- `push(text)` from app.py: one `requests.post`, whose returned response is
discarded without any status inspection (there is no `raise_for_status` and
no try/except), so a transport error raised by `requests.post` propagates. -/
def push (w : World) (text : String) : World × Except PyErr Unit :=
  match requestsPost w text with
  | (w', .ok _) => (w', .ok ())
  | (w', .error e) => (w', .error e)

/-- A Python return value of a tool call as far as app.py produces one:
`None` (what `push` returns) or a flat dict of strings. -/
inductive PyRet
  | none
  | dict (fields : List (String × String))
deriving DecidableEq, Repr, Inhabited

/-- `json.dumps` on the values of `PyRet` (Python's default separators). -/
def jsonDumps : PyRet → String
  | .none => "null"
  | .dict fields =>
    "\x7b" ++ String.intercalate ", "
      (fields.map (fun p => "\"" ++ p.1 ++ "\": \"" ++ p.2 ++ "\"")) ++ "\x7d"

/-- `record_user_details(email, name, notes)` from app.py: sends one
notification and reports success.  In the source `name` defaults to
"Name not provided" and `notes` to "not provided"; the defaults are applied
at the keyword-binding step `bindRecordUserDetails` below. -/
def record_user_details (w : World) (email name notes : String) :
    World × Except PyErr PyRet :=
  match push w ("Recording interest from " ++ name ++ " with email " ++ email
      ++ " and notes " ++ notes) with
  | (w', .ok _) => (w', .ok (.dict [("status", "success")]))
  | (w', .error e) => (w', .error e)

/-- `record_unknown_question(question)` from app.py: sends one notification
and reports success. -/
def record_unknown_question (w : World) (question : String) :
    World × Except PyErr PyRet :=
  match push w (question ++ " it appears I don't know how to answer that") with
  | (w', .ok _) => (w', .ok (.dict [("status", "success")]))
  | (w', .error e) => (w', .error e)

/-- The argument string of a tool call as `json.loads` sees it: either a
payload that decodes to a (string-valued) JSON object, or a payload on which
`json.loads` raises `JSONDecodeError`. -/
inductive ArgPayload
  | valid (obj : List (String × String))
  | invalid
deriving DecidableEq, Repr, Inhabited

/-- `json.loads(tool_call.function.arguments)`. -/
def jsonLoads : ArgPayload → Except PyErr (List (String × String))
  | .valid obj => .ok obj
  | .invalid => .error .jsonDecodeError

/-- One entry of `message.tool_calls` from the completion API: the
correlation id, the requested tool name, and the JSON argument string. -/
structure ToolCall where
  id : String
  name : String
  arguments : ArgPayload
deriving DecidableEq, Repr, Inhabited

/-- The dict `handle_tool_calls` appends per tool call:
`role` is always "tool", `content` is `json.dumps` of the result, and
`tool_call_id` echoes the request's id. -/
structure ToolMsg where
  role : String
  content : String
  tool_call_id : String
deriving DecidableEq, Repr, Inhabited

/-- The callables of the app.py module namespace that a tool-call name can
reach through `globals().get(tool_name)` and that accept keyword arguments
of the tool-call shape: the two advertised tools and the notifier `push`.
The namespace also binds imported modules and classes (json, os, requests,
OpenAI, Me, ...); those are not advertised as tools and none of the claims
exercises them, so the model leaves them out. -/
inductive AppGlobal
  | push
  | record_user_details
  | record_unknown_question
deriving DecidableEq, Repr, Inhabited

/-- `globals().get(tool_name)` over the modelled module namespace. -/
def appGlobalsGet (name : String) : Option AppGlobal :=
  if name = "push" then some .push
  else if name = "record_user_details" then some .record_user_details
  else if name = "record_unknown_question" then some .record_unknown_question
  else none

/-- First value bound to key `k` in a decoded JSON object. -/
def lookupArg (obj : List (String × String)) (k : String) : Option String :=
  (obj.find? (fun p => p.1 == k)).map (fun p => p.2)

/-- Python keyword binding `push(**obj)`: requires exactly the parameter
`text`; any other keyword raises `TypeError`; `push` returns `None`. -/
def bindPush (w : World) (obj : List (String × String)) :
    World × Except PyErr PyRet :=
  if obj.all (fun p => p.1 == "text") then
    match lookupArg obj "text" with
    | some text =>
      match push w text with
      | (w', .ok _) => (w', .ok .none)
      | (w', .error e) => (w', .error e)
    | Option.none => (w, .error .typeError)
  else (w, .error .typeError)

/-- Python keyword binding `record_user_details(**obj)`: `email` is
required, `name` and `notes` take the source's default strings, any other
keyword raises `TypeError`. -/
def bindRecordUserDetails (w : World) (obj : List (String × String)) :
    World × Except PyErr PyRet :=
  if obj.all (fun p => p.1 == "email" || p.1 == "name" || p.1 == "notes") then
    match lookupArg obj "email" with
    | some email =>
      record_user_details w email
        ((lookupArg obj "name").getD "Name not provided")
        ((lookupArg obj "notes").getD "not provided")
    | Option.none => (w, .error .typeError)
  else (w, .error .typeError)

/-- Python keyword binding `record_unknown_question(**obj)`. -/
def bindRecordUnknownQuestion (w : World) (obj : List (String × String)) :
    World × Except PyErr PyRet :=
  if obj.all (fun p => p.1 == "question") then
    match lookupArg obj "question" with
    | some question => record_unknown_question w question
    | Option.none => (w, .error .typeError)
  else (w, .error .typeError)

/-- `tool(**arguments)` for a callable found in the module namespace. -/
def callGlobal (g : AppGlobal) (w : World) (obj : List (String × String)) :
    World × Except PyErr PyRet :=
  match g with
  | .push => bindPush w obj
  | .record_user_details => bindRecordUserDetails w obj
  | .record_unknown_question => bindRecordUnknownQuestion w obj

/-- `Me.handle_tool_calls(tool_calls)` from app.py: for each tool call, in
order, decode the JSON arguments (raising aborts everything), look the name
up in the module globals, invoke the callable if found (`result = {}` if
not), and append a "tool"-role dict carrying `json.dumps(result)` and the
request's id.  Any raised exception propagates to the caller. -/
def handle_tool_calls (w : World) : List ToolCall → Except PyErr (World × List ToolMsg)
  | [] => .ok (w, [])
  | tc :: rest =>
    match jsonLoads tc.arguments with
    | .error e => .error e
    | .ok arguments =>
      match appGlobalsGet tc.name with
      | some tool =>
        match callGlobal tool w arguments with
        | (_, .error e) => .error e
        | (w2, .ok result) =>
          match handle_tool_calls w2 rest with
          | .error e => .error e
          | .ok (w3, results) =>
            .ok (w3, ⟨"tool", jsonDumps result, tc.id⟩ :: results)
      | Option.none =>
        match handle_tool_calls w rest with
        | .error e => .error e
        | .ok (w3, results) =>
          .ok (w3, ⟨"tool", jsonDumps (.dict []), tc.id⟩ :: results)

/-- One entry of the conversation list handed to the completion API:
a role-tagged dict, or the SDK message object appended verbatim by the loop
(assistant role, carrying the requested tool calls). -/
inductive Msg
  | system (content : String)
  | user (content : String)
  | assistant (content : String) (tool_calls : List ToolCall)
  | tool (content : String) (tool_call_id : String)
deriving DecidableEq, Repr, Inhabited

/-- One completion scripted for `openai.chat.completions.create`:
`choices[0].finish_reason`, `choices[0].message.content` and
`choices[0].message.tool_calls`. -/
structure LLMResponse where
  finish_reason : String
  content : String
  tool_calls : List ToolCall
deriving DecidableEq, Repr, Inhabited

/-- The immutable persona state a `Me` instance holds after `__init__`
(`self.name`, the PDF-extracted `self.linkedin`, and `self.summary`); the
file loading itself is plain I/O and not claim-relevant. -/
structure MeProfile where
  name : String
  linkedin : String
  summary : String
deriving DecidableEq, Repr, Inhabited

/-- `Me.system_prompt()` from app.py.  The Python source writes the first
paragraph as one f-string with backslash line continuations, so each
continuation contributes the 8 leading spaces of the next source line. -/
def system_prompt (me : MeProfile) : String :=
  "You are acting as " ++ me.name ++ ". You are answering questions on "
    ++ me.name ++ "'s website,         particularly questions related to "
    ++ me.name ++ "'s career, background, skills and experience."
    ++ "         Your responsibility is to represent " ++ me.name
    ++ " for interactions on the website as faithfully as possible."
    ++ "         You are given a summary of " ++ me.name
    ++ "'s background profile which you can use to answer questions."
    ++ "         Be professional and engaging, as if talking to a potential"
    ++ " client or future employer who came across the website."
    ++ "         If you don't know the answer to any question, use your"
    ++ " record_unknown_question tool to record the question that you"
    ++ " couldn't answer, even if it's about something trivial or unrelated"
    ++ " to career.         If the user is engaging in discussion, try to"
    ++ " steer them towards getting in touch via email; ask for their email"
    ++ " and record it using your record_user_details tool. "
    ++ "\n\n## Summary:\n" ++ me.summary ++ "\n\n## Summary Profile:\n"
    ++ me.linkedin ++ "\n\n"
    ++ "With this context, please chat with the user, always staying in"
    ++ " character as " ++ me.name ++ "."

/-- The updated system prompt `Me.rerun` builds after a rejection. -/
def rerun_system_prompt (me : MeProfile) (reply feedback : String) : String :=
  system_prompt me
    ++ "\n\n## Previous answer rejected\nYou just tried to reply, but the"
    ++ " quality control rejected your reply\n"
    ++ "## Your attempted answer:\n" ++ reply ++ "\n\n"
    ++ "## Reason for rejection:\n" ++ feedback ++ "\n\n"

/-- The pydantic `Evaluation` model: acceptability flag plus feedback. -/
structure Evaluation where
  is_acceptable : Bool
  feedback : String
deriving DecidableEq, Repr, Inhabited

/-- `Me.evaluate(reply, message, history)`: one structured LLM call whose
verdict is scripted by `evalOracle`.  The prompt strings it sends are plain
interpolations of its three arguments; what the claims are about is which
arguments reach this call, and `chat` records exactly those. -/
def evaluate (evalOracle : Evaluation) (reply : String) (message : String)
    (history : List Msg) : Evaluation :=
  evalOracle

/-- `Me.rerun(reply, message, history, feedback)` from app.py: one more
completion call (no tools advertised) on the updated system prompt, the
original history and the original user message; returns the completion's
content together with the remaining oracle and the message list it sent. -/
def rerun (me : MeProfile) (oracle : List LLMResponse) (reply message : String)
    (history : List Msg) (feedback : String) :
    Except PyErr (List LLMResponse × String × List Msg) :=
  let messages :=
    Msg.system (rerun_system_prompt me reply feedback) :: (history ++ [Msg.user message])
  match oracle with
  | [] => .error .apiError
  | resp :: rest => .ok (rest, resp.content, messages)

/-- What the `while not done` loop of `Me.chat` produces when it exits:
the final world, the unconsumed oracle, the completion that ended the loop,
and the message list sent to each completion call, in order. -/
structure LoopOut where
  world : World
  oracleRest : List LLMResponse
  finalResp : LLMResponse
  callLog : List (List Msg)
deriving DecidableEq, Repr, Inhabited

/-- The `while not done` loop of `Me.chat`: send `messages` to the LLM;
if `finish_reason == "tool_calls"`, run `handle_tool_calls`, append the
assistant message object and then the tool results, and iterate; otherwise
exit with that completion.  An exhausted oracle models a completion call
that raises, which propagates uncaught. -/
def chatLoop (w : World) (messages : List Msg) :
    List LLMResponse → Except PyErr LoopOut
  | [] => .error .apiError
  | resp :: rest =>
    if resp.finish_reason = "tool_calls" then
      match handle_tool_calls w resp.tool_calls with
      | .error e => .error e
      | .ok (w2, results) =>
        let newMsgs := messages ++ [Msg.assistant resp.content resp.tool_calls]
          ++ results.map (fun m => Msg.tool m.content m.tool_call_id)
        match chatLoop w2 newMsgs rest with
        | .error e => .error e
        | .ok out => .ok { out with callLog := messages :: out.callLog }
    else
      .ok { world := w, oracleRest := rest, finalResp := resp, callLog := [messages] }

/-- Everything observable about one `Me.chat(message, history)` turn:
the returned reply, the pre-evaluation candidate, the message list of every
loop completion call, the arguments of every `evaluate` call, the verdict,
the rerun call (its arguments, the message list it sent, its output) when
one happened, and the final world. -/
structure ChatResult where
  reply : String
  candidate : String
  loopCreateCalls : List (List Msg)
  evalCalls : List (String × String × List Msg)
  evaluation : Evaluation
  rerunArgs : Option (String × String × List Msg × String)
  rerunMessages : Option (List Msg)
  rerunOut : Option String
  world : World
deriving DecidableEq, Repr, Inhabited

/-- All completion calls of the turn: the loop's calls, then the rerun's
call when the evaluation was rejected. -/
def ChatResult.createCalls (r : ChatResult) : List (List Msg) :=
  r.loopCreateCalls ++ r.rerunMessages.toList

/-- `Me.chat(message, history)` from app.py: build the working conversation
as system prompt, then the supplied history, then the new user message;
run the tool loop; evaluate the candidate on (reply, message, history);
return it if acceptable, else rerun once and return the rerun's output. -/
def chat (me : MeProfile) (evalOracle : Evaluation) (oracle : List LLMResponse)
    (w : World) (message : String) (history : List Msg) :
    Except PyErr ChatResult :=
  let messages := Msg.system (system_prompt me) :: (history ++ [Msg.user message])
  match chatLoop w messages oracle with
  | .error e => .error e
  | .ok out =>
    let reply := out.finalResp.content
    let evaluation := evaluate evalOracle reply message history
    if evaluation.is_acceptable then
      .ok { reply := reply, candidate := reply,
            loopCreateCalls := out.callLog,
            evalCalls := [(reply, message, history)],
            evaluation := evaluation,
            rerunArgs := none, rerunMessages := none, rerunOut := none,
            world := out.world }
    else
      match rerun me out.oracleRest reply message history evaluation.feedback with
      | .error e => .error e
      | .ok (_, newReply, rerunMsgs) =>
        .ok { reply := newReply, candidate := reply,
              loopCreateCalls := out.callLog,
              evalCalls := [(reply, message, history)],
              evaluation := evaluation,
              rerunArgs := some (reply, message, history, evaluation.feedback),
              rerunMessages := some rerunMsgs, rerunOut := some newReply,
              world := out.world }

/-- One row of the `unanswered_questions` table.  `created_at` is the
store-assigned creation stamp, modelled as a strictly increasing insertion
sequence number (the column's now() default under a monotone clock). -/
structure QRow where
  id : Nat
  question_text : String
  category : Option String
  asked_by : Option String
  notes : Option String
  created_at : Nat
deriving DecidableEq, Repr, Inhabited

/-- The database state seen through one `QuestionDB` instance, plus the
connection accounting the resource claims are about: `rows` is kept in
insertion order (ascending `created_at`), `nextId` is the serial id
sequence, `opened`/`closed` count connections ever acquired and released,
and `stmts` counts `cursor.execute` attempts. -/
structure QDB where
  rows : List QRow
  nextId : Nat
  opened : Nat
  closed : Nat
  stmts : Nat
deriving DecidableEq, Repr, Inhabited

/-- Fault scripted for one store operation: the `psycopg2.connect` call
raises, the single `cursor.execute` raises, or everything succeeds. -/
inductive DBFault
  | ok
  | connectFail
  | execFail
deriving DecidableEq, Repr, Inhabited

/-- Store-layer errors surfaced to the caller. -/
inductive DBErr
  | connectError
  | sqlError
deriving DecidableEq, Repr, Inhabited

/-- The `conn = self._get_connection(); try: ... finally: conn.close()`
pattern shared by every `QuestionDB` method: if `connect` raises, nothing
was acquired and the error propagates at once; otherwise the connection is
acquired, the single statement is attempted (raising on `execFail` without
running `body`), and the `finally` block releases the connection before the
result — error or value — reaches the caller. -/
def withConn {α : Type} (fault : DBFault) (st : QDB)
    (body : QDB → QDB × α) : QDB × Except DBErr α :=
  match fault with
  | .connectFail => (st, .error .connectError)
  | .execFail =>
    let acquired := { st with opened := st.opened + 1 }
    let attempted := { acquired with stmts := acquired.stmts + 1 }
    let released := { attempted with closed := attempted.closed + 1 }
    (released, .error .sqlError)
  | .ok =>
    let acquired := { st with opened := st.opened + 1 }
    let attempted := { acquired with stmts := acquired.stmts + 1 }
    let (st2, a) := body attempted
    let released := { st2 with closed := st2.closed + 1 }
    (released, .ok a)

/-- Rows as `ORDER BY created_at DESC` returns them; `rows` is invariantly
kept ascending in `created_at`, so this is the reversed list. -/
def orderByCreatedDesc (rows : List QRow) : List QRow :=
  rows.reverse

/-- Boolean prefix test on character lists. -/
def isPrefixB : List Char → List Char → Bool
  | [], _ => true
  | _ :: _, [] => false
  | a :: as, b :: bs => a == b && isPrefixB as bs

/-- Boolean contiguous-sublist test on character lists. -/
def isInfixB (pat : List Char) : List Char → Bool
  | [] => isPrefixB pat []
  | c :: rest => isPrefixB pat (c :: rest) || isInfixB pat rest

/-- Model of the engine's full-text match
`to_tsvector('english', question_text) @@ plainto_tsquery('english', kw)`:
an external operator of the store engine, modelled as substring matching. -/
def ftsMatches (keyword text : String) : Bool :=
  isInfixB keyword.toList text.toList

/-- `QuestionDB.add_question`: INSERT ... RETURNING id, commit, return the
generated id. -/
def add_question (fault : DBFault) (st : QDB) (question_text : String)
    (category asked_by notes : Option String) : QDB × Except DBErr Nat :=
  withConn fault st (fun s =>
    let row : QRow :=
      { id := s.nextId, question_text := question_text, category := category,
        asked_by := asked_by, notes := notes, created_at := s.nextId }
    ({ s with rows := s.rows ++ [row], nextId := s.nextId + 1 }, s.nextId))

/-- `QuestionDB.get_all_questions`: SELECT * ORDER BY created_at DESC. -/
def get_all_questions (fault : DBFault) (st : QDB) :
    QDB × Except DBErr (List QRow) :=
  withConn fault st (fun s => (s, orderByCreatedDesc s.rows))

/-- `QuestionDB.search_questions`: full-text filter, newest first. -/
def search_questions (fault : DBFault) (st : QDB) (keyword : String) :
    QDB × Except DBErr (List QRow) :=
  withConn fault st (fun s =>
    (s, orderByCreatedDesc (s.rows.filter (fun r => ftsMatches keyword r.question_text))))

/-- `QuestionDB.get_by_category`: exact category match (SQL `=` never
matches NULL), newest first. -/
def get_by_category (fault : DBFault) (st : QDB) (category : String) :
    QDB × Except DBErr (List QRow) :=
  withConn fault st (fun s =>
    (s, orderByCreatedDesc (s.rows.filter (fun r => r.category == some category))))

/-- `QuestionDB.delete_question`: DELETE WHERE id = %s RETURNING id, commit;
returns whether `fetchone()` found a returned row. -/
def delete_question (fault : DBFault) (st : QDB) (question_id : Nat) :
    QDB × Except DBErr Bool :=
  withConn fault st (fun s =>
    ({ s with rows := s.rows.filter (fun r => !(r.id == question_id)) },
     s.rows.any (fun r => r.id == question_id)))

/-- `QuestionDB.update_notes`: UPDATE ... RETURNING id, commit; returns
whether a row matched. -/
def update_notes (fault : DBFault) (st : QDB) (question_id : Nat)
    (notes : String) : QDB × Except DBErr Bool :=
  withConn fault st (fun s =>
    ({ s with rows := s.rows.map (fun r =>
        if r.id == question_id then { r with notes := some notes } else r) },
     s.rows.any (fun r => r.id == question_id)))

/-- Insert one (category, count) pair into a list kept descending by count
(stable for ties, as some total order the engine may pick). -/
def insertByCountDesc (p : Option String × Nat) :
    List (Option String × Nat) → List (Option String × Nat)
  | [] => [p]
  | q :: qs => if q.2 < p.2 then p :: q :: qs else q :: insertByCountDesc p qs

/-- Sort (category, count) pairs descending by count. -/
def sortByCountDesc (l : List (Option String × Nat)) :
    List (Option String × Nat) :=
  l.foldr insertByCountDesc []

/-- The distinct categories of the rows, in first-appearance order (NULL is
its own group, as GROUP BY treats it). -/
def categoriesOf (rows : List QRow) : List (Option String) :=
  rows.foldl (fun acc r => if acc.contains r.category then acc else acc ++ [r.category]) []

/-- `QuestionDB.get_category_stats`: GROUP BY category with counts,
ORDER BY count DESC. -/
def get_category_stats (fault : DBFault) (st : QDB) :
    QDB × Except DBErr (List (Option String × Nat)) :=
  withConn fault st (fun s =>
    (s, sortByCountDesc ((categoriesOf s.rows).map (fun c =>
      (c, (s.rows.filter (fun r => r.category == c)).length)))))

/-- One Question Store operation with its arguments. -/
inductive DBOp
  | add (question_text : String) (category asked_by notes : Option String)
  | listAll
  | search (keyword : String)
  | byCategory (category : String)
  | delete (question_id : Nat)
  | updNotes (question_id : Nat) (notes : String)
  | stats
deriving DecidableEq, Repr, Inhabited

/-- The value any store operation returns, erased to one type. -/
inductive DBOut
  | id (n : Nat)
  | rowList (rs : List QRow)
  | flag (b : Bool)
  | statList (s : List (Option String × Nat))
deriving DecidableEq, Repr, Inhabited

/-- Run one store operation under one scripted fault. -/
def runOp (op : DBOp) (fault : DBFault) (st : QDB) : QDB × Except DBErr DBOut :=
  match op with
  | .add q c a n =>
    let (st', r) := add_question fault st q c a n
    (st', r.map .id)
  | .listAll =>
    let (st', r) := get_all_questions fault st
    (st', r.map .rowList)
  | .search kw =>
    let (st', r) := search_questions fault st kw
    (st', r.map .rowList)
  | .byCategory c =>
    let (st', r) := get_by_category fault st c
    (st', r.map .rowList)
  | .delete qid =>
    let (st', r) := delete_question fault st qid
    (st', r.map .flag)
  | .updNotes qid notes =>
    let (st', r) := update_notes fault st qid notes
    (st', r.map .flag)
  | .stats =>
    let (st', r) := get_category_stats fault st
    (st', r.map .statList)

/-- The notification text `record_user_details` formats. -/
def userDetailsText (email name notes : String) : String :=
  "Recording interest from " ++ name ++ " with email " ++ email
    ++ " and notes " ++ notes

/-- The notification text `record_unknown_question` formats. -/
def unknownQuestionText (question : String) : String :=
  question ++ " it appears I don't know how to answer that"

/-- C6 (as frozen, refuted here): the claim says a transport error is not
surfaced to the tool's caller.  On the code, `push` has no try/except
around `requests.post`, so at this concrete input the transport error
propagates out of `record_user_details` — the tool does raise. -/
theorem notifier_transport_counterexample :
    record_user_details ⟨[HttpOutcome.transportError], []⟩ "test@example.com"
        "Name not provided" "not provided" =
      (⟨[], [userDetailsText "test@example.com" "Name not provided" "not provided"]⟩,
       .error .requestsError) := by
  rfl

/-- C6 (amended): a non-2xx HTTP response is never surfaced — the response
status is not inspected and each tool returns the success dict after exactly
one notification attempt; a transport error raised by the HTTP layer,
however, propagates uncaught out of the tool (still after exactly one
attempt). -/
theorem notifier_best_effort (w : World) (email name notes question : String)
    (s : Nat) (rest : List HttpOutcome) :
    (w.outcomes = HttpOutcome.response s :: rest →
      record_user_details w email name notes =
        ({ outcomes := rest,
           attempts := w.attempts ++ [userDetailsText email name notes] },
         .ok (.dict [("status", "success")])) ∧
      record_unknown_question w question =
        ({ outcomes := rest,
           attempts := w.attempts ++ [unknownQuestionText question] },
         .ok (.dict [("status", "success")]))) ∧
    (w.outcomes = HttpOutcome.transportError :: rest →
      record_user_details w email name notes =
        ({ outcomes := rest,
           attempts := w.attempts ++ [userDetailsText email name notes] },
         .error .requestsError) ∧
      record_unknown_question w question =
        ({ outcomes := rest,
           attempts := w.attempts ++ [unknownQuestionText question] },
         .error .requestsError)) := by
  constructor <;> intro h <;>
    exact ⟨by simp [record_user_details, push, requestsPost, h, userDetailsText],
           by simp [record_unknown_question, push, requestsPost, h, unknownQuestionText]⟩

/-- Witness for `notifier_best_effort` at a concrete server failure
(status 500) and a concrete transport error. -/
theorem notifier_best_effort_witness :
    (record_user_details ⟨[HttpOutcome.response 500], []⟩ "e@x.com"
        "Jo" "n" =
      (⟨[], [userDetailsText "e@x.com" "Jo" "n"]⟩,
       .ok (.dict [("status", "success")])) ∧
     record_unknown_question ⟨[HttpOutcome.response 500], []⟩ "Q?" =
      (⟨[], [unknownQuestionText "Q?"]⟩, .ok (.dict [("status", "success")]))) ∧
    (record_unknown_question ⟨[HttpOutcome.transportError], []⟩ "Q?" =
      (⟨[], [unknownQuestionText "Q?"]⟩, .error .requestsError)) :=
  ⟨(notifier_best_effort ⟨[HttpOutcome.response 500], []⟩ "e@x.com" "Jo" "n" "Q?"
      500 []).1 rfl,
   ((notifier_best_effort ⟨[HttpOutcome.transportError], []⟩ "e@x.com" "Jo" "n" "Q?"
      500 []).2 rfl).2⟩

/-- C9: in `handle_tool_calls` the `json.loads` of the argument payload
happens before the `globals().get` lookup, so a malformed payload raises
`JSONDecodeError` whatever the tool name — known, unknown, or any other —
while the unknown-tool tolerance (empty-object result, no failure) applies
exactly when the payload decodes. -/
theorem decode_before_lookup :
    (∀ (w : World) (id name : String) (rest : List ToolCall),
      handle_tool_calls w (⟨id, name, .invalid⟩ :: rest) =
        .error .jsonDecodeError) ∧
    (∀ (w : World) (id : String) (obj : List (String × String)),
      handle_tool_calls w [⟨id, "does_not_exist", .valid obj⟩] =
        .ok (w, [⟨"tool", "\x7b\x7d", id⟩])) :=
  ⟨fun _ _ _ _ => rfl, fun _ _ _ => rfl⟩

/-- C4 (as frozen, refuted here): the registry is not a closed two-name
set — `globals().get` resolves any module-level name, so a ToolInvocation
named "push" invokes the notifier: a notification attempt is made and the
ToolResult content is "null" (the dump of push's None), not the empty
object, and no error is raised. -/
theorem tool_registry_counterexample :
    handle_tool_calls ⟨[], []⟩ [⟨"call_1", "push", .valid [("text", "hi")]⟩] =
      .ok (⟨[], ["hi"]⟩, [⟨"tool", "null", "call_1"⟩]) ∧
    ("null" : String) ≠ "\x7b\x7d" ∧
    (⟨[], ["hi"]⟩ : World).attempts ≠ ([] : List String) :=
  ⟨rfl, by decide, by decide⟩

/-- C4 (amended): dispatch resolves the tool name in the module's global
namespace.  The two advertised tools are invoked with the decoded keyword
arguments, but so is any other module-level callable — e.g. "push" — while
a name not bound in the namespace, such as "does_not_exist", invokes
nothing, yields content the empty object, and does not fail the turn. -/
theorem tool_dispatch_module_globals (w : World) (id : String)
    (obj : List (String × String)) :
    (∀ (w' : World) (ret : PyRet),
      bindRecordUserDetails w obj = (w', .ok ret) →
      handle_tool_calls w [⟨id, "record_user_details", .valid obj⟩] =
        .ok (w', [⟨"tool", jsonDumps ret, id⟩])) ∧
    (∀ (w' : World) (ret : PyRet),
      bindRecordUnknownQuestion w obj = (w', .ok ret) →
      handle_tool_calls w [⟨id, "record_unknown_question", .valid obj⟩] =
        .ok (w', [⟨"tool", jsonDumps ret, id⟩])) ∧
    (∀ (w' : World) (ret : PyRet),
      bindPush w obj = (w', .ok ret) →
      handle_tool_calls w [⟨id, "push", .valid obj⟩] =
        .ok (w', [⟨"tool", jsonDumps ret, id⟩])) ∧
    handle_tool_calls w [⟨id, "does_not_exist", .valid obj⟩] =
      .ok (w, [⟨"tool", "\x7b\x7d", id⟩]) := by
  refine ⟨fun w' ret h => ?_, fun w' ret h => ?_, fun w' ret h => ?_, rfl⟩ <;>
    simp [handle_tool_calls, jsonLoads, appGlobalsGet, callGlobal, h]

/-- Witness for `tool_dispatch_module_globals`: a concrete
`record_user_details` invocation with only the required email keyword, the
defaults from the source filling in the rest. -/
theorem tool_dispatch_module_globals_witness :
    handle_tool_calls ⟨[], []⟩
        [⟨"call_123", "record_user_details", .valid [("email", "test@example.com")]⟩] =
      .ok (⟨[], [userDetailsText "test@example.com" "Name not provided" "not provided"]⟩,
           [⟨"tool", jsonDumps (.dict [("status", "success")]), "call_123"⟩]) :=
  (tool_dispatch_module_globals ⟨[], []⟩ "call_123"
      [("email", "test@example.com")]).1
    ⟨[], [userDetailsText "test@example.com" "Name not provided" "not provided"]⟩
    (.dict [("status", "success")]) (by rfl)

/-- Filtering away the rows with identifier `qid` leaves no row whose
identifier is `qid`. -/
theorem any_filter_not_id (l : List QRow) (qid : Nat) :
    (l.filter (fun r => !(r.id == qid))).any (fun r => r.id == qid) = false := by
  induction l with
  | nil => rfl
  | cons a t ih =>
    by_cases h : a.id == qid <;> simp_all [List.filter_cons]

/-- C7: every Question Store operation follows the
connect / try / finally-close discipline: a failing `connect` acquires
nothing and propagates at once; otherwise exactly one connection is
acquired, exactly one statement is attempted, and the connection is
released unconditionally — the released count in the state an erroring
operation hands back shows the close ran before the error surfaced, and a
failed statement commits no mutation. -/
theorem question_db_connection_discipline (op : DBOp) (fault : DBFault)
    (st : QDB) :
    (fault = .connectFail → runOp op fault st = (st, .error .connectError)) ∧
    (fault ≠ .connectFail →
      (runOp op fault st).1.opened = st.opened + 1 ∧
      (runOp op fault st).1.closed = st.closed + 1 ∧
      (runOp op fault st).1.stmts = st.stmts + 1) ∧
    (fault = .execFail →
      (runOp op fault st).2 = .error .sqlError ∧
      (runOp op fault st).1.rows = st.rows ∧
      (runOp op fault st).1.nextId = st.nextId) := by
  cases fault <;> cases op <;>
    simp [runOp, add_question, get_all_questions, search_questions,
      get_by_category, delete_question, update_notes, get_category_stats,
      withConn, Except.map]

/-- Witness for `question_db_connection_discipline`: a failing statement
inside `add_question` on the empty store still balances the connection
accounting, surfaces the SQL error, and commits nothing. -/
theorem question_db_connection_discipline_witness :
    (runOp (.add "Q" none none none) .execFail ⟨[], 1, 0, 0, 0⟩).1.opened = 0 + 1 ∧
    (runOp (.add "Q" none none none) .execFail ⟨[], 1, 0, 0, 0⟩).1.closed = 0 + 1 ∧
    (runOp (.add "Q" none none none) .execFail ⟨[], 1, 0, 0, 0⟩).1.stmts = 0 + 1 ∧
    (runOp (.add "Q" none none none) .execFail ⟨[], 1, 0, 0, 0⟩).2 = .error .sqlError :=
  ⟨((question_db_connection_discipline (.add "Q" none none none) .execFail
      ⟨[], 1, 0, 0, 0⟩).2.1 (by decide)).1,
   ((question_db_connection_discipline (.add "Q" none none none) .execFail
      ⟨[], 1, 0, 0, 0⟩).2.1 (by decide)).2.1,
   ((question_db_connection_discipline (.add "Q" none none none) .execFail
      ⟨[], 1, 0, 0, 0⟩).2.1 (by decide)).2.2,
   ((question_db_connection_discipline (.add "Q" none none none) .execFail
      ⟨[], 1, 0, 0, 0⟩).2.2 rfl).1⟩

/-- C8: `delete_question` returns true exactly when a row with the given
identifier exists, removes exactly the rows with that identifier, returns
false on an immediately repeated delete of the same identifier, and leaves
the row set unchanged whenever it returns false. -/
theorem delete_question_spec (st : QDB) (qid : Nat) :
    (delete_question .ok st qid).2 =
      .ok (st.rows.any (fun r => r.id == qid)) ∧
    (delete_question .ok st qid).1.rows =
      st.rows.filter (fun r => !(r.id == qid)) ∧
    (delete_question .ok (delete_question .ok st qid).1 qid).2 = .ok false ∧
    (st.rows.any (fun r => r.id == qid) = false →
      (delete_question .ok st qid).1.rows = st.rows) := by
  refine ⟨rfl, rfl, ?_, ?_⟩
  · exact congrArg Except.ok (any_filter_not_id st.rows qid)
  · intro h
    show st.rows.filter (fun r => !(r.id == qid)) = st.rows
    refine List.filter_eq_self.mpr (fun a ha => ?_)
    rcases List.any_eq_false.mp h a ha with h'
    simp [h']

/-- Witness for `delete_question_spec`: on a one-row store the first delete
of id 1 reports true and empties the table, the second reports false, and a
delete of a missing id leaves the row set unchanged. -/
theorem delete_question_spec_witness :
    (delete_question .ok ⟨[⟨1, "Q1", some "X", none, none, 1⟩], 2, 0, 0, 0⟩ 1).2 =
      .ok ((⟨[⟨1, "Q1", some "X", none, none, 1⟩], 2, 0, 0, 0⟩ : QDB).rows.any
        (fun r => r.id == 1)) ∧
    (delete_question .ok ⟨[⟨1, "Q1", some "X", none, none, 1⟩], 2, 0, 0, 0⟩ 1).1.rows =
      (⟨[⟨1, "Q1", some "X", none, none, 1⟩], 2, 0, 0, 0⟩ : QDB).rows.filter
        (fun r => !(r.id == 1)) ∧
    (delete_question .ok
      (delete_question .ok ⟨[⟨1, "Q1", some "X", none, none, 1⟩], 2, 0, 0, 0⟩ 1).1 1).2 =
      .ok false ∧
    ((⟨[⟨1, "Q1", some "X", none, none, 1⟩], 2, 0, 0, 0⟩ : QDB).rows.any
        (fun r => r.id == 1) = false →
      (delete_question .ok ⟨[⟨1, "Q1", some "X", none, none, 1⟩], 2, 0, 0, 0⟩ 1).1.rows =
        (⟨[⟨1, "Q1", some "X", none, none, 1⟩], 2, 0, 0, 0⟩ : QDB).rows) :=
  delete_question_spec ⟨[⟨1, "Q1", some "X", none, none, 1⟩], 2, 0, 0, 0⟩ 1

/-- Structure of a successful `handle_tool_calls`: exactly one entry per
requested tool call, in order, each a "tool"-role dict echoing the id of
the request it answers. -/
theorem handle_tool_calls_ids :
    ∀ (tcs : List ToolCall) (w w' : World) (results : List ToolMsg),
      handle_tool_calls w tcs = .ok (w', results) →
      results.map ToolMsg.tool_call_id = tcs.map ToolCall.id ∧
      ∀ m ∈ results, m.role = "tool" := by
  intro tcs
  induction tcs with
  | nil =>
    intro w w' results h
    simp only [handle_tool_calls, Except.ok.injEq, Prod.mk.injEq] at h
    simp [← h.2]
  | cons tc rest ih =>
    intro w w' results h
    simp only [handle_tool_calls] at h
    split at h
    · exact absurd h (by simp)
    · split at h
      · split at h
        · exact absurd h (by simp)
        next w2 result hcall =>
          split at h
          · exact absurd h (by simp)
          next w3 results' hrec =>
            simp only [Except.ok.injEq, Prod.mk.injEq] at h
            obtain ⟨hw, hr⟩ := h
            subst hw
            subst hr
            obtain ⟨hids, hroles⟩ := ih w2 w3 results' hrec
            refine ⟨by simp [hids], ?_⟩
            intro m hm
            rcases List.mem_cons.mp hm with h' | h'
            · subst h'; rfl
            · exact hroles m h'
      · split at h
        · exact absurd h (by simp)
        next w3 results' hrec =>
          simp only [Except.ok.injEq, Prod.mk.injEq] at h
          obtain ⟨hw, hr⟩ := h
          subst hw
          subst hr
          obtain ⟨hids, hroles⟩ := ih w w3 results' hrec
          refine ⟨by simp [hids], ?_⟩
          intro m hm
          rcases List.mem_cons.mp hm with h' | h'
          · subst h'; rfl
          · exact hroles m h'

/-- One tool round as C1 states it: the next call's message list extends the
previous one with the assistant's tool-call message first, then exactly one
"tool"-role entry per requested ToolInvocation, in order, each carrying the
correlation id of the request it answers. -/
def ToolRound (prev next : List Msg) : Prop :=
  ∃ (resp : LLMResponse) (results : List ToolMsg),
    resp.finish_reason = "tool_calls" ∧
    results.map ToolMsg.tool_call_id = resp.tool_calls.map ToolCall.id ∧
    (∀ m ∈ results, m.role = "tool") ∧
    next = prev ++ [Msg.assistant resp.content resp.tool_calls]
      ++ results.map (fun m => Msg.tool m.content m.tool_call_id)

/-- What a successful `chatLoop` run guarantees: the first completion call
was sent exactly the initial message list, consecutive calls are linked by
`ToolRound`, the loop exits only on a non-"tool_calls" finish reason, and
one completion call is issued per consumed oracle entry. -/
theorem chatLoop_spec :
    ∀ (oracle : List LLMResponse) (w : World) (messages : List Msg) (out : LoopOut),
      chatLoop w messages oracle = .ok out →
      out.callLog.head? = some messages ∧
      List.Chain' ToolRound out.callLog ∧
      out.finalResp.finish_reason ≠ "tool_calls" ∧
      out.callLog.length + out.oracleRest.length = oracle.length := by
  intro oracle
  induction oracle with
  | nil => intro w messages out h; exact absurd h (by simp [chatLoop])
  | cons resp rest ih =>
    intro w messages out h
    simp only [chatLoop] at h
    split at h
    next hfr =>
      split at h
      · exact absurd h (by simp)
      next w2 results hh =>
        split at h
        · exact absurd h (by simp)
        next out' hrec =>
          simp only [Except.ok.injEq] at h
          subst h
          obtain ⟨h1, h2, h3, h4⟩ := ih w2 _ out' hrec
          obtain ⟨hids, hroles⟩ := handle_tool_calls_ids resp.tool_calls w w2 results hh
          refine ⟨rfl, ?_, h3, ?_⟩
          · refine List.chain'_cons'.mpr ⟨?_, h2⟩
            intro b hb
            rw [h1] at hb
            rw [Option.mem_some_iff] at hb
            exact ⟨resp, results, hfr, hids, hroles, hb.symm⟩
          · simp only [List.length_cons]
            omega
    next hfr =>
      simp only [Except.ok.injEq] at h
      subst h
      refine ⟨rfl, List.chain'_singleton _, hfr, ?_⟩
      simp only [List.length_cons, List.length_nil]
      omega

/-- A successful `rerun` sent the updated system prompt, the original
history and the original user message, and returned the content of the
completion it consumed. -/
theorem rerun_ok (me : MeProfile) (oracle : List LLMResponse)
    (reply message : String) (history : List Msg) (feedback : String)
    (rest : List LLMResponse) (outStr : String) (msgs : List Msg)
    (h : rerun me oracle reply message history feedback = .ok (rest, outStr, msgs)) :
    msgs = Msg.system (rerun_system_prompt me reply feedback)
      :: (history ++ [Msg.user message]) ∧
    ∃ resp, oracle = resp :: rest ∧ outStr = resp.content := by
  cases oracle with
  | nil => exact absurd h (by simp [rerun])
  | cons resp rest' =>
    simp only [rerun, Except.ok.injEq, Prod.mk.injEq] at h
    obtain ⟨h1, h2, h3⟩ := h
    exact ⟨h3.symm, resp, by rw [h1], h2.symm⟩

/-- Case analysis of a successful `chat` turn: the loop ran on the initial
conversation, the candidate is the loop's final content, the evaluator was
invoked exactly once on (candidate, message, original history), and the
accept/reject branch fills the rerun fields as the source does. -/
theorem chat_ok_cases (me : MeProfile) (evalOracle : Evaluation)
    (oracle : List LLMResponse) (w : World) (message : String)
    (history : List Msg) (r : ChatResult)
    (h : chat me evalOracle oracle w message history = .ok r) :
    ∃ out, chatLoop w (Msg.system (system_prompt me)
        :: (history ++ [Msg.user message])) oracle = .ok out ∧
      r.loopCreateCalls = out.callLog ∧
      r.candidate = out.finalResp.content ∧
      r.evalCalls = [(r.candidate, message, history)] ∧
      r.evaluation = evalOracle ∧
      (evalOracle.is_acceptable = true →
        r.reply = r.candidate ∧ r.rerunArgs = none ∧
        r.rerunMessages = none ∧ r.rerunOut = none) ∧
      (evalOracle.is_acceptable = false →
        r.rerunArgs = some (r.candidate, message, history, evalOracle.feedback) ∧
        r.rerunMessages = some (Msg.system
          (rerun_system_prompt me r.candidate evalOracle.feedback)
          :: (history ++ [Msg.user message])) ∧
        r.rerunOut = some r.reply) := by
  simp only [chat] at h
  split at h
  · exact absurd h (by simp)
  next out hl =>
    refine ⟨out, hl, ?_⟩
    split at h
    next hacc =>
      simp only [Except.ok.injEq] at h
      subst h
      have hacc' : evalOracle.is_acceptable = true := hacc
      exact ⟨rfl, rfl, rfl, rfl, fun _ => ⟨rfl, rfl, rfl, rfl⟩,
        fun hf => absurd hacc' (by simp [hf])⟩
    next hacc =>
      split at h
      · exact absurd h (by simp)
      next rest2 newReply rerunMsgs hr =>
        simp only [Except.ok.injEq] at h
        subst h
        have hacc' : evalOracle.is_acceptable = false := by
          simpa [evaluate] using hacc
        obtain ⟨hm, -⟩ := rerun_ok me out.oracleRest out.finalResp.content message
          history evalOracle.feedback rest2 newReply rerunMsgs hr
        exact ⟨rfl, rfl, rfl, rfl,
          fun ht => absurd ht (by simp [hacc']),
          fun _ => ⟨rfl, by rw [hm], rfl⟩⟩

/-- C1: in every successful `chat` turn the first completion call is sent
exactly one system entry holding the persona prompt, then the supplied
history in order, then the new user message; and every consecutive pair of
loop completion calls is linked by a tool round — the assistant's tool-call
message appended first, then exactly one "tool"-role entry per requested
ToolInvocation, in order, each carrying the `tool_call_id` of the request
it answers — before the next call is issued. -/
theorem chat_messages_spec (me : MeProfile) (evalOracle : Evaluation)
    (oracle : List LLMResponse) (w : World) (message : String)
    (history : List Msg) (r : ChatResult)
    (h : chat me evalOracle oracle w message history = .ok r) :
    r.loopCreateCalls.head? =
      some (Msg.system (system_prompt me) :: (history ++ [Msg.user message])) ∧
    List.Chain' ToolRound r.loopCreateCalls := by
  obtain ⟨out, hl, hlog, -⟩ := chat_ok_cases me evalOracle oracle w message history r h
  obtain ⟨h1, h2, -, -⟩ := chatLoop_spec oracle w _ out hl
  rw [hlog]
  exact ⟨h1, h2⟩

/-- C3: in every successful `chat` turn the evaluator is invoked exactly
once, on the candidate reply, the new user message and the history exactly
as `chat` received it — never on the tool-augmented working conversation. -/
theorem chat_eval_args (me : MeProfile) (evalOracle : Evaluation)
    (oracle : List LLMResponse) (w : World) (message : String)
    (history : List Msg) (r : ChatResult)
    (h : chat me evalOracle oracle w message history = .ok r) :
    r.evalCalls = [(r.candidate, message, history)] := by
  obtain ⟨out, hl, hlog, hc, he, -⟩ :=
    chat_ok_cases me evalOracle oracle w message history r h
  exact he

/-- C2: whenever the evaluation is rejected, the regeneration step runs
exactly once, with the candidate reply, the new user message, the original
history and the evaluation feedback; the returned reply is the rerun's
output verbatim; the candidate was the only reply ever evaluated (exactly
one evaluation, never a second pass on the regenerated reply); and exactly
one completion call beyond the loop's is issued. -/
theorem chat_rejection_rerun (me : MeProfile) (evalOracle : Evaluation)
    (oracle : List LLMResponse) (w : World) (message : String)
    (history : List Msg) (r : ChatResult)
    (h : chat me evalOracle oracle w message history = .ok r)
    (hrej : evalOracle.is_acceptable = false) :
    r.rerunArgs = some (r.candidate, message, history, evalOracle.feedback) ∧
    r.rerunMessages = some (Msg.system
      (rerun_system_prompt me r.candidate evalOracle.feedback)
      :: (history ++ [Msg.user message])) ∧
    r.rerunOut = some r.reply ∧
    r.evalCalls = [(r.candidate, message, history)] ∧
    r.createCalls.length = r.loopCreateCalls.length + 1 := by
  obtain ⟨out, hl, hlog, hc, he, hev, hok, hbad⟩ :=
    chat_ok_cases me evalOracle oracle w message history r h
  obtain ⟨ha, hm, ho⟩ := hbad hrej
  refine ⟨ha, hm, ho, he, ?_⟩
  simp [ChatResult.createCalls, hm]

/-- Concrete fixtures for the witnesses: a persona, scripted verdicts, a
tool-call completion requesting `record_user_details`, and a final stop
completion. -/
def me0 : MeProfile :=
  ⟨"Michael Di Giatnomasso", "LinkedIn profile text", "Test summary content"⟩

/-- Accepting evaluator verdict fixture. -/
def evalOk : Evaluation := ⟨true, "Good response"⟩

/-- Rejecting evaluator verdict fixture. -/
def evalBad : Evaluation := ⟨false, "Response not professional enough"⟩

/-- A completion requesting one `record_user_details` tool call. -/
def respTool0 : LLMResponse :=
  ⟨"tool_calls", "", [⟨"call_123", "record_user_details",
    .valid [("email", "test@example.com")]⟩]⟩

/-- A final completion with a normal stop reason. -/
def respStop0 : LLMResponse := ⟨"stop", "I've recorded your details!", []⟩

/-- The completion the rerun consumes in the rejection scenario. -/
def respRerun0 : LLMResponse := ⟨"stop", "Improved response", []⟩

/-- The clean initial world: no scripted HTTP faults, no attempts yet. -/
def w0 : World := ⟨[], []⟩

/-- The `ChatResult` of a turn that is known to succeed. -/
def chatRes (me : MeProfile) (evalOracle : Evaluation)
    (oracle : List LLMResponse) (w : World) (message : String)
    (history : List Msg) : ChatResult :=
  match chat me evalOracle oracle w message history with
  | .ok r => r
  | .error _ => default

/-- Witness for `chat_messages_spec`: a concrete turn with one
`record_user_details` tool round followed by a stop completion. -/
theorem chat_messages_spec_witness :
    (chatRes me0 evalOk [respTool0, respStop0] w0
        "My email is test@example.com" []).loopCreateCalls.head? =
      some (Msg.system (system_prompt me0)
        :: ([] ++ [Msg.user "My email is test@example.com"])) ∧
    List.Chain' ToolRound (chatRes me0 evalOk [respTool0, respStop0] w0
        "My email is test@example.com" []).loopCreateCalls :=
  chat_messages_spec me0 evalOk [respTool0, respStop0] w0
    "My email is test@example.com" []
    (chatRes me0 evalOk [respTool0, respStop0] w0 "My email is test@example.com" [])
    (by rfl)

/-- Witness for `chat_eval_args`: in the same concrete tool-round turn the
evaluator sees the candidate, the user message and the empty original
history, not the grown working conversation. -/
theorem chat_eval_args_witness :
    (chatRes me0 evalOk [respTool0, respStop0] w0 "Hello" []).evalCalls =
      [((chatRes me0 evalOk [respTool0, respStop0] w0 "Hello" []).candidate,
        "Hello", [])] :=
  chat_eval_args me0 evalOk [respTool0, respStop0] w0 "Hello" []
    (chatRes me0 evalOk [respTool0, respStop0] w0 "Hello" []) (by rfl)

/-- Witness for `chat_rejection_rerun`: a concrete rejected turn; the rerun
runs once with the candidate and feedback and its output is returned. -/
theorem chat_rejection_rerun_witness :
    (chatRes me0 evalBad [respStop0, respRerun0] w0 "Hello" []).rerunArgs =
      some ((chatRes me0 evalBad [respStop0, respRerun0] w0 "Hello" []).candidate,
        "Hello", [], evalBad.feedback) ∧
    (chatRes me0 evalBad [respStop0, respRerun0] w0 "Hello" []).rerunMessages =
      some (Msg.system (rerun_system_prompt me0
        (chatRes me0 evalBad [respStop0, respRerun0] w0 "Hello" []).candidate
        evalBad.feedback) :: ([] ++ [Msg.user "Hello"])) ∧
    (chatRes me0 evalBad [respStop0, respRerun0] w0 "Hello" []).rerunOut =
      some (chatRes me0 evalBad [respStop0, respRerun0] w0 "Hello" []).reply ∧
    (chatRes me0 evalBad [respStop0, respRerun0] w0 "Hello" []).evalCalls =
      [((chatRes me0 evalBad [respStop0, respRerun0] w0 "Hello" []).candidate,
        "Hello", [])] ∧
    (chatRes me0 evalBad [respStop0, respRerun0] w0 "Hello" []).createCalls.length =
      (chatRes me0 evalBad [respStop0, respRerun0] w0 "Hello" []).loopCreateCalls.length + 1 :=
  chat_rejection_rerun me0 evalBad [respStop0, respRerun0] w0 "Hello" []
    (chatRes me0 evalBad [respStop0, respRerun0] w0 "Hello" []) (by rfl) (by rfl)

/-- A successful `handle_tool_calls` run never contained a malformed
argument payload: decoding happens for every entry before its result is
produced, so one invalid payload makes success impossible. -/
theorem handle_ok_no_invalid :
    ∀ (tcs : List ToolCall) (w w' : World) (results : List ToolMsg),
      handle_tool_calls w tcs = .ok (w', results) →
      ∀ tc ∈ tcs, tc.arguments ≠ .invalid := by
  intro tcs
  induction tcs with
  | nil => intro w w' results _ tc htc; exact absurd htc (by simp)
  | cons tc rest ih =>
    intro w w' results h tc' htc'
    simp only [handle_tool_calls] at h
    split at h
    · exact absurd h (by simp)
    next args harg =>
      rcases List.mem_cons.mp htc' with h' | h'
      · subst h'
        intro hbad
        rw [hbad] at harg
        exact absurd harg (by simp [jsonLoads])
      · split at h
        · split at h
          · exact absurd h (by simp)
          next w2 result hcall =>
            split at h
            · exact absurd h (by simp)
            next w3 results' hrec => exact ih w2 w3 results' hrec tc' h'
        · split at h
          · exact absurd h (by simp)
          next w3 results' hrec => exact ih w w3 results' hrec tc' h'

/-- C5: a ToolInvocation whose argument payload is not valid JSON makes the
whole tool-handling step raise — it can never return results, whatever
stands before or after the bad call — and when such a call arrives in a
tool-call completion, the decode error propagates out of `chat`, aborting
the turn with no reply. -/
theorem malformed_args_abort :
    (∀ (w : World) (pre post : List ToolCall) (tc : ToolCall),
      tc.arguments = .invalid →
      ∃ e, handle_tool_calls w (pre ++ tc :: post) = .error e) ∧
    (∀ (me : MeProfile) (evalOracle : Evaluation) (rest : List LLMResponse)
      (w : World) (message : String) (history : List Msg)
      (resp : LLMResponse) (tcPost : List ToolCall) (tc : ToolCall),
      resp.finish_reason = "tool_calls" → resp.tool_calls = tc :: tcPost →
      tc.arguments = .invalid →
      chat me evalOracle (resp :: rest) w message history =
        .error .jsonDecodeError) := by
  constructor
  · intro w pre post tc h
    cases hres : handle_tool_calls w (pre ++ tc :: post) with
    | error e => exact ⟨e, rfl⟩
    | ok pr =>
      obtain ⟨w', results⟩ := pr
      have := handle_ok_no_invalid (pre ++ tc :: post) w w' results hres tc
        (by simp)
      exact absurd h this
  · intro me evalOracle rest w message history resp tcPost tc h1 h2 h3
    have hh : handle_tool_calls w resp.tool_calls = .error .jsonDecodeError := by
      rw [h2]
      simp [handle_tool_calls, h3, jsonLoads]
    have hloop : chatLoop w (Msg.system (system_prompt me)
        :: (history ++ [Msg.user message])) (resp :: rest) =
        .error .jsonDecodeError := by
      simp [chatLoop, h1, hh]
    simp [chat, hloop]

/-- A tool-call completion carrying a malformed argument payload. -/
def respBad0 : LLMResponse :=
  ⟨"tool_calls", "", [⟨"call_9", "record_user_details", .invalid⟩]⟩

/-- Witness for `malformed_args_abort`: the concrete malformed round aborts
the whole turn with the decode error and no reply. -/
theorem malformed_args_abort_witness :
    chat me0 evalOk [respBad0] w0 "Hello" [] = .error .jsonDecodeError :=
  malformed_args_abort.2 me0 evalOk [] w0 "Hello" [] respBad0 []
    ⟨"call_9", "record_user_details", .invalid⟩ rfl rfl rfl

/-- Whether Python keyword binding of this decoded object against this
module callable succeeds (no missing required key, no unexpected key). -/
def bindArgsOk (g : AppGlobal) (obj : List (String × String)) : Bool :=
  match g with
  | .push =>
    obj.all (fun p => p.1 == "text") && (lookupArg obj "text").isSome
  | .record_user_details =>
    obj.all (fun p => p.1 == "email" || p.1 == "name" || p.1 == "notes")
      && (lookupArg obj "email").isSome
  | .record_unknown_question =>
    obj.all (fun p => p.1 == "question") && (lookupArg obj "question").isSome

/-- Whether one tool call executes without raising (valid JSON and, when
the name resolves in the module namespace, clean keyword binding). -/
def toolCallOk (tc : ToolCall) : Bool :=
  match tc.arguments with
  | .invalid => false
  | .valid obj =>
    match appGlobalsGet tc.name with
    | Option.none => true
    | some g => bindArgsOk g obj

/-- On a clean network a well-bound callable invocation succeeds and keeps
the network clean. -/
theorem callGlobal_clean_ok (g : AppGlobal) (obj : List (String × String))
    (w : World) (hw : w.outcomes = []) (hb : bindArgsOk g obj = true) :
    ∃ ret, (callGlobal g w obj).2 = .ok ret ∧
      (callGlobal g w obj).1.outcomes = [] := by
  cases g with
  | push =>
    simp only [bindArgsOk, Bool.and_eq_true, Option.isSome_iff_exists] at hb
    obtain ⟨hall, t, ht⟩ := hb
    exact ⟨.none, by simp [callGlobal, bindPush, hall, ht, push, requestsPost, hw],
      by simp [callGlobal, bindPush, hall, ht, push, requestsPost, hw]⟩
  | record_user_details =>
    simp only [bindArgsOk, Bool.and_eq_true, Option.isSome_iff_exists] at hb
    obtain ⟨hall, email, hemail⟩ := hb
    exact ⟨.dict [("status", "success")],
      by simp [callGlobal, bindRecordUserDetails, hall, hemail,
        record_user_details, push, requestsPost, hw],
      by simp [callGlobal, bindRecordUserDetails, hall, hemail,
        record_user_details, push, requestsPost, hw]⟩
  | record_unknown_question =>
    simp only [bindArgsOk, Bool.and_eq_true, Option.isSome_iff_exists] at hb
    obtain ⟨hall, q, hq⟩ := hb
    exact ⟨.dict [("status", "success")],
      by simp [callGlobal, bindRecordUnknownQuestion, hall, hq,
        record_unknown_question, push, requestsPost, hw],
      by simp [callGlobal, bindRecordUnknownQuestion, hall, hq,
        record_unknown_question, push, requestsPost, hw]⟩

/-- On a clean network a round of tool calls that all pass `toolCallOk`
executes without raising and keeps the network clean. -/
theorem handle_clean_ok :
    ∀ (tcs : List ToolCall) (w : World), w.outcomes = [] →
      (∀ tc ∈ tcs, toolCallOk tc = true) →
      ∃ w' results, handle_tool_calls w tcs = .ok (w', results) ∧
        w'.outcomes = [] := by
  intro tcs
  induction tcs with
  | nil => intro w hw _; exact ⟨w, [], rfl, hw⟩
  | cons tc rest ih =>
    intro w hw hall
    have htc := hall tc (List.mem_cons_self tc rest)
    have hrest : ∀ tc' ∈ rest, toolCallOk tc' = true :=
      fun tc' h' => hall tc' (List.mem_cons_of_mem tc h')
    cases harg : tc.arguments with
    | invalid => rw [toolCallOk, harg] at htc; simp at htc
    | valid obj =>
      cases hg : appGlobalsGet tc.name with
      | none =>
        obtain ⟨w', results, hrec, hw'⟩ := ih w hw hrest
        exact ⟨w', ⟨"tool", jsonDumps (.dict []), tc.id⟩ :: results,
          by simp [handle_tool_calls, harg, jsonLoads, hg, hrec], hw'⟩
      | some g =>
        have hb : bindArgsOk g obj = true := by
          rw [toolCallOk, harg] at htc
          simpa [hg] using htc
        obtain ⟨ret, hret, hw2⟩ := callGlobal_clean_ok g obj w hw hb
        rcases hcg : callGlobal g w obj with ⟨w2, res⟩
        rw [hcg] at hret hw2
        subst hret
        obtain ⟨w', results, hrec, hw'⟩ := ih w2 hw2 hrest
        exact ⟨w', ⟨"tool", jsonDumps ret, tc.id⟩ :: results,
          by simp [handle_tool_calls, harg, jsonLoads, hg, hcg, hrec], hw'⟩

/-- If every scripted completion requests tool calls, the loop consumes the
whole script — one completion call per round — and, the script exhausted,
aborts with the API error: it never exits on its own. -/
theorem chatLoop_all_tool_calls :
    ∀ (oracle : List LLMResponse) (w : World) (messages : List Msg),
      w.outcomes = [] →
      (∀ resp ∈ oracle, ∀ tc ∈ resp.tool_calls, toolCallOk tc = true) →
      (∀ resp ∈ oracle, resp.finish_reason = "tool_calls") →
      chatLoop w messages oracle = .error .apiError := by
  intro oracle
  induction oracle with
  | nil => intro w messages _ _ _; rfl
  | cons resp rest ih =>
    intro w messages hw hok hall
    have hfr := hall resp (List.mem_cons_self resp rest)
    obtain ⟨w2, results, hh, hw2⟩ := handle_clean_ok resp.tool_calls w hw
      (hok resp (List.mem_cons_self resp rest))
    have hrec := ih w2 (messages ++ [Msg.assistant resp.content resp.tool_calls]
        ++ results.map (fun m => Msg.tool m.content m.tool_call_id)) hw2
      (fun r' h' => hok r' (List.mem_cons_of_mem resp h'))
      (fun r' h' => hall r' (List.mem_cons_of_mem resp h'))
    simp only [List.append_assoc, List.singleton_append] at hrec
    simp [chatLoop, hfr, hh, hrec]

/-- If the first k scripted completions request tool calls that execute
cleanly and the (k+1)-st has any other finish reason, the loop exits there
after exactly k + 1 completion calls. -/
theorem chatLoop_rounds :
    ∀ (k : Nat) (oracle : List LLMResponse) (w : World) (messages : List Msg)
      (resp : LLMResponse),
      w.outcomes = [] →
      (∀ r' ∈ oracle, ∀ tc ∈ r'.tool_calls, toolCallOk tc = true) →
      oracle.get? k = some resp →
      (∀ i, i < k → ∀ r', oracle.get? i = some r' →
        r'.finish_reason = "tool_calls") →
      resp.finish_reason ≠ "tool_calls" →
      ∃ out, chatLoop w messages oracle = .ok out ∧
        out.callLog.length = k + 1 := by
  intro k
  induction k with
  | zero =>
    intro oracle w messages resp hw hok hget hpre hfr
    cases oracle with
    | nil => exact absurd hget (by simp)
    | cons r0 rest =>
      simp only [List.get?] at hget
      obtain rfl := Option.some.inj hget
      refine ⟨⟨w, rest, r0, [messages]⟩, ?_, rfl⟩
      simp [chatLoop, hfr]
  | succ k ih =>
    intro oracle w messages resp hw hok hget hpre hfr
    cases oracle with
    | nil => exact absurd hget (by simp)
    | cons r0 rest =>
      have hfr0 : r0.finish_reason = "tool_calls" :=
        hpre 0 (Nat.succ_pos k) r0 rfl
      obtain ⟨w2, results, hh, hw2⟩ := handle_clean_ok r0.tool_calls w hw
        (hok r0 (List.mem_cons_self r0 rest))
      have hget' : rest.get? k = some resp := hget
      have hpre' : ∀ i, i < k → ∀ r', rest.get? i = some r' →
          r'.finish_reason = "tool_calls" :=
        fun i hi r' h' => hpre (i + 1) (Nat.succ_lt_succ hi) r' h'
      obtain ⟨out, hrec, hlen⟩ := ih rest w2
        (messages ++ [Msg.assistant r0.content r0.tool_calls]
          ++ results.map (fun m => Msg.tool m.content m.tool_call_id)) resp hw2
        (fun r' h' => hok r' (List.mem_cons_of_mem r0 h')) hget' hpre' hfr
      refine ⟨{ out with callLog := messages :: out.callLog }, ?_, ?_⟩
      · simp only [List.append_assoc, List.singleton_append] at hrec
        simp [chatLoop, hfr0, hh, hrec]
      · simp [hlen]

/-- C10: the loop has no iteration bound of its own.  On a clean network
with cleanly executing tool calls: if every completion requests tool calls
the loop never produces a reply — it issues one completion call per
scripted round until the script is exhausted (in the real program, with an
LLM that always answers "tool_calls", it would iterate forever), and `chat`
aborts with no reply; while as soon as the (k+1)-st completion has any
other finish reason the loop terminates, having issued exactly one
completion call per tool round plus one final call. -/
theorem chat_loop_termination (w : World) (messages : List Msg)
    (oracle : List LLMResponse)
    (hw : w.outcomes = [])
    (hok : ∀ resp ∈ oracle, ∀ tc ∈ resp.tool_calls, toolCallOk tc = true) :
    ((∀ resp ∈ oracle, resp.finish_reason = "tool_calls") →
      chatLoop w messages oracle = .error .apiError ∧
      ∀ (me : MeProfile) (evalOracle : Evaluation) (message : String)
        (history : List Msg),
        chat me evalOracle oracle w message history = .error .apiError) ∧
    (∀ (k : Nat) (resp : LLMResponse), oracle.get? k = some resp →
      (∀ i, i < k → ∀ r', oracle.get? i = some r' →
        r'.finish_reason = "tool_calls") →
      resp.finish_reason ≠ "tool_calls" →
      ∃ out, chatLoop w messages oracle = .ok out ∧
        out.callLog.length = k + 1) := by
  constructor
  · intro hall
    refine ⟨chatLoop_all_tool_calls oracle w messages hw hok hall, ?_⟩
    intro me evalOracle message history
    have hl := chatLoop_all_tool_calls oracle w
      (Msg.system (system_prompt me) :: (history ++ [Msg.user message]))
      hw hok hall
    simp [chat, hl]
  · intro k resp hget hpre hfr
    exact chatLoop_rounds k oracle w messages resp hw hok hget hpre hfr

/-- Witness for `chat_loop_termination`: one concrete tool round then a
stop completion make the loop terminate after exactly two completion
calls. -/
theorem chat_loop_termination_witness :
    ∃ out, chatLoop w0 [Msg.user "Hi"] [respTool0, respStop0] = .ok out ∧
      out.callLog.length = 1 + 1 :=
  (chat_loop_termination w0 [Msg.user "Hi"] [respTool0, respStop0] rfl
    (by decide)).2 1 respStop0 rfl
    (fun i hi r' hr' => by
      obtain rfl : i = 0 := by omega
      simp only [List.get?] at hr'
      obtain rfl := Option.some.inj hr'
      rfl)
    (by decide)

end CareerConversations
